import Mathlib

/-!
Verification development for the pomodoro repository.

The embedding below translates the data model and the operations of the
repository into Lean:

* `src/types.rs` — the `Command`, `SessionType` and `AppError` enumerations,
  together with the standard-library channel error types they wrap.
* `src/session_timer.rs` — `SessionTimer::run`, the channel-based countdown
  loop, embedded as `runLoop` / `SessionTimer.run` over an explicit trace of
  receive outcomes (`RecvEvent`).
* `src/main.rs` — the flag-based `run_timer`, `run_break_timer` and the
  controller loop of `main`, together with the `POMODORO_COUNTER` discipline.

Durations are modelled in whole seconds (`Duration::as_secs`), machine
integers (`u64`) as `Nat`; the audio sink, the terminal progress-bar
rendering and wall-clock time are external collaborators and are modelled
only through their observable effects (progress position, emitted
notification messages, whether the completion sound was requested).
-/

namespace Pomodoro

/-- Command, from src/types.rs: the closed enumeration of user intents. -/
inductive Command
  | Pause
  | PauseResume
  | Reset
  | Resume
  | Skip
deriving Repr, DecidableEq

/-- SessionType, from src/types.rs (the identical enumeration also appears in
src/main.rs): three variants, each carrying a display label. -/
inductive SessionType
  | Work (msg : String)
  | ShortBreak (msg : String)
  | LongBreak (msg : String)
deriving Repr, DecidableEq

/-- Display of a session type, from the fmt::Display impl in src/types.rs:
each variant prints its label. -/
def SessionType.display : SessionType → String
  | .Work msg => msg
  | .ShortBreak msg => msg
  | .LongBreak msg => msg

/-- Embedding of the Rust guard `matches!(self.session, SessionType::Work(_))`
used in SessionTimer::run. -/
def SessionType.isWork : SessionType → Bool
  | .Work _ => true
  | _ => false

/-- Model of std::sync::mpsc::RecvError (a unit struct: the channel was
disconnected while blocking in recv). -/
inductive RecvError
  | mk
deriving Repr, DecidableEq

/-- Model of std::sync::mpsc::RecvTimeoutError. -/
inductive RecvTimeoutError
  | Timeout
  | Disconnected
deriving Repr, DecidableEq

/-- AppError, from src/types.rs: the closed taxonomy of channel errors. -/
inductive AppError
  | ChannelSend (c : Command)
  | ChannelRecv (e : RecvError)
  | ChannelRecvTimeout (e : RecvTimeoutError)
deriving Repr, DecidableEq

instance : DecidableEq (Except AppError Unit) := fun a b =>
  match a, b with
  | .ok _, .ok _ => isTrue rfl
  | .error e₁, .error e₂ =>
    if h : e₁ = e₂ then isTrue (by rw [h]) else isFalse (by simp [h])
  | .ok _, .error _ => isFalse (by simp)
  | .error _, .ok _ => isFalse (by simp)

/-- SessionTimer, from src/session_timer.rs. The channel receiver, the audio
sink and the output stream are external collaborators; the remaining fields
are carried verbatim. `SessionTimer::new` sets `is_paused := false` and
`sound := !no_sound`. -/
structure SessionTimer where
  duration : Nat
  is_paused : Bool
  session : SessionType
  current_cycle : Nat
  total_cycles : Nat
  sound : Bool
deriving Repr, DecidableEq

/-- SessionTimer::new, from src/session_timer.rs. -/
def SessionTimer.new (duration : Nat) (session : SessionType)
    (current_cycle total_cycles : Nat) (no_sound : Bool) : SessionTimer :=
  { duration := duration
    is_paused := false
    session := session
    current_cycle := current_cycle
    total_cycles := total_cycles
    sound := !no_sound }

/-- One outcome of one observation window of the command channel, as seen by
the countdown loop of SessionTimer::run:
* `cmd c` — the receive call returned `Ok(c)`;
* `timeout` — one second passed with no command (for `recv_timeout` this is
  `Err(Timeout)`; while blocked in `recv` it is simply time passing, which
  the loop never observes);
* `disconnected` — the sending side is gone (`Err(Disconnected)` for
  `recv_timeout`, `Err(RecvError)` for `recv`). -/
inductive RecvEvent
  | cmd (c : Command)
  | timeout
  | disconnected
deriving Repr, DecidableEq

/-- Mutable state of one execution of the countdown loop of
SessionTimer::run: the local `remaining_secs`, the `is_paused` field, and
the progress-bar position (`ProgressBar::new` starts at 0, `inc(1)` on each
tick, `set_position(0)` on reset). -/
structure RunState where
  remaining_secs : Nat
  is_paused : Bool
  pos : Nat
deriving Repr, DecidableEq

/-- Result of running the countdown loop on a finite event trace. -/
inductive LoopExit
  | exited (s : RunState) (notifs : List String) (rest : List RecvEvent)
  | errored (e : AppError) (s : RunState) (notifs : List String)
      (rest : List RecvEvent)
  | pending (s : RunState) (notifs : List String)
deriving Repr, DecidableEq

/-- The notification message sent when ten seconds remain, from
`send_notification(&format!(..., self.session))` in src/session_timer.rs. -/
def tenSecondsMsg (t : SessionTimer) : String :=
  t.session.display ++ ": 00:10s left"

/-- Notifications after the check at the top of the countdown loop
(src/session_timer.rs, lines 71-73): when `remaining_secs == 10` the
ten-seconds-left notification is sent. -/
def loopTop (t : SessionTimer) (remaining_secs : Nat)
    (notifs : List String) : List String :=
  if remaining_secs = 10 then notifs ++ [tenSecondsMsg t] else notifs

/-- The `while remaining_secs > 0` loop of SessionTimer::run
(src/session_timer.rs, lines 70-111), as a function of the trace of channel
events. Each loop iteration consumes exactly one receive outcome, except
that a `timeout` event arriving while the timer is paused is absorbed
without a new loop iteration: the source blocks inside `recv()` there, so
the loop top (with its ten-seconds check) does not run again until a
command or a disconnect arrives.

Branches, in source order: the ten-seconds notification at the loop top
(`loopTop`); while paused, `Resume`/`PauseResume` unpause (plus an ETA
reset, not modelled) and every other command is ignored, a receive error
returns `AppError::ChannelRecv`; while running, `Skip` breaks out of the
loop unless the session is a work session (match guard), `Pause` and
`PauseResume` pause, `Reset` restores `remaining_secs` to the duration and
the progress position to zero, other commands are ignored, a timeout ticks
(decrement and `inc(1)`), and a non-timeout receive error returns
`AppError::ChannelRecvTimeout`. An exhausted trace while the loop still
waits yields `pending`. -/
def runLoop (t : SessionTimer) : List RecvEvent → RunState → List String →
    LoopExit
  | [], s, notifs =>
    if s.remaining_secs = 0 then .exited s notifs []
    else .pending s (loopTop t s.remaining_secs notifs)
  | e :: rest, s, notifs =>
    if s.remaining_secs = 0 then .exited s notifs (e :: rest)
    else if s.is_paused then
      match e with
      | .timeout => runLoop t rest s notifs
      | .cmd .Resume =>
        runLoop t rest { s with is_paused := false } (loopTop t s.remaining_secs notifs)
      | .cmd .PauseResume =>
        runLoop t rest { s with is_paused := false } (loopTop t s.remaining_secs notifs)
      | .cmd .Pause => runLoop t rest s (loopTop t s.remaining_secs notifs)
      | .cmd .Reset => runLoop t rest s (loopTop t s.remaining_secs notifs)
      | .cmd .Skip => runLoop t rest s (loopTop t s.remaining_secs notifs)
      | .disconnected =>
        .errored (.ChannelRecv .mk) s (loopTop t s.remaining_secs notifs) rest
    else
      match e with
      | .cmd .Skip =>
        if t.session.isWork then runLoop t rest s (loopTop t s.remaining_secs notifs)
        else .exited s (loopTop t s.remaining_secs notifs) rest
      | .cmd .Pause =>
        runLoop t rest { s with is_paused := true } (loopTop t s.remaining_secs notifs)
      | .cmd .PauseResume =>
        runLoop t rest { s with is_paused := true } (loopTop t s.remaining_secs notifs)
      | .cmd .Reset =>
        runLoop t rest { s with remaining_secs := t.duration, pos := 0 }
          (loopTop t s.remaining_secs notifs)
      | .cmd .Resume => runLoop t rest s (loopTop t s.remaining_secs notifs)
      | .timeout =>
        runLoop t rest
          { s with remaining_secs := s.remaining_secs - 1, pos := s.pos + 1 }
          (loopTop t s.remaining_secs notifs)
      | .disconnected =>
        .errored (.ChannelRecvTimeout .Disconnected) s (loopTop t s.remaining_secs notifs)
          rest

/-- Final run state of a loop exit. -/
def LoopExit.state : LoopExit → RunState
  | .exited s _ _ => s
  | .errored _ s _ _ => s
  | .pending s _ => s

/-- Observable result of SessionTimer::run on a finite event trace:
`outcome` is the returned `Result` (`none` when the trace was exhausted
while the loop was still waiting), `final` the run state at exit, `notifs`
the notifications sent, `soundPlayed` whether the completion tone was
requested, and `rest` the events the run did not consume. -/
structure RunResult where
  outcome : Option (Except AppError Unit)
  final : RunState
  notifs : List String
  soundPlayed : Bool
  rest : List RecvEvent
deriving Repr, DecidableEq

/-- SessionTimer::run, from src/session_timer.rs: initialise
`remaining_secs := duration`, progress position 0, run the loop, and after
the loop play the completion sound exactly when `remaining_secs == 0` and
sound is enabled. Both normal completion and a skip `break` return
`Ok(())`; a receive error is returned as `Err` before the sound check. -/
def SessionTimer.run (t : SessionTimer) (evs : List RecvEvent) : RunResult :=
  match runLoop t evs
      { remaining_secs := t.duration, is_paused := t.is_paused, pos := 0 } [] with
  | .exited s notifs rest =>
    { outcome := some (.ok ())
      final := s
      notifs := notifs
      soundPlayed := (s.remaining_secs == 0) && t.sound
      rest := rest }
  | .errored e s notifs rest =>
    { outcome := some (.error e)
      final := s
      notifs := notifs
      soundPlayed := false
      rest := rest }
  | .pending s notifs =>
    { outcome := none
      final := s
      notifs := notifs
      soundPlayed := false
      rest := [] }

/-- Trace of the run states the countdown loop of SessionTimer::run passes
through: the state at entry of the loop (before the first iteration) and
after every state update, following exactly the branches of `runLoop`.
Absorbed timeouts while paused repeat the unchanged state. Every value the
variables `remaining_secs`, `is_paused` and the progress position take
during a run appears in this trace. -/
def runLoopTrace (t : SessionTimer) : List RecvEvent → RunState →
    List RunState
  | [], s => [s]
  | e :: rest, s =>
    if s.remaining_secs = 0 then [s]
    else if s.is_paused then
      match e with
      | .timeout => s :: runLoopTrace t rest s
      | .cmd .Resume => s :: runLoopTrace t rest { s with is_paused := false }
      | .cmd .PauseResume =>
        s :: runLoopTrace t rest { s with is_paused := false }
      | .cmd .Pause => s :: runLoopTrace t rest s
      | .cmd .Reset => s :: runLoopTrace t rest s
      | .cmd .Skip => s :: runLoopTrace t rest s
      | .disconnected => [s]
    else
      match e with
      | .cmd .Skip =>
        if t.session.isWork then s :: runLoopTrace t rest s else [s]
      | .cmd .Pause => s :: runLoopTrace t rest { s with is_paused := true }
      | .cmd .PauseResume =>
        s :: runLoopTrace t rest { s with is_paused := true }
      | .cmd .Reset =>
        s :: runLoopTrace t rest { s with remaining_secs := t.duration, pos := 0 }
      | .cmd .Resume => s :: runLoopTrace t rest s
      | .timeout =>
        s :: runLoopTrace t rest
          { s with remaining_secs := s.remaining_secs - 1, pos := s.pos + 1 }
      | .disconnected => [s]

/-- Notifications sent during `k` consecutive loop tops whose entry values of
`remaining_secs` are `r, r - 1, ..., r - k + 1`: the ten-seconds message is
sent exactly when the value 10 is among them. -/
def tickNotifs (t : SessionTimer) (r k : Nat) : List String :=
  if 10 ≤ r ∧ r < k + 10 then [tenSecondsMsg t] else []

/-- Configuration, from src/main.rs (clap defaults: work 25, short break 5,
long break 15, 4 cycles, sound on). Durations are in minutes. -/
structure Config where
  work_duration : Nat
  short_break : Nat
  long_break : Nat
  cycles : Nat
  no_sound : Bool
deriving Repr, DecidableEq

/-- Completion notification text, from src/main.rs lines 127-131. -/
def completionMessage : SessionType → String
  | .Work _ => "Work session is over. Time for a break! 💪"
  | .ShortBreak _ => "Break is over. Time to focus! 🧠"
  | .LongBreak _ => "Long break is over. Time to get back to work! 💼"

/-- Observable result of the flag-based run_timer of src/main.rs:
the skip outcome, the value of POMODORO_COUNTER after the call, the
notifications sent, whether the completion sound was requested, and the
final progress position. -/
structure RunTimerResult where
  was_skipped : Bool
  counter : Nat
  notifs : List String
  soundPlayed : Bool
  pos : Nat
deriving Repr, DecidableEq

/-- The `for remaining_seconds in (1..=total_seconds).rev()` loop of the
flag-based run_timer (src/main.rs, lines 96-123). `skipObs remaining` is the
value the skip flag is observed to hold at the top of the iteration for
that value of `remaining_seconds`; observing `true` breaks out with
`was_skipped`. The pause busy-wait only touches the progress-bar message
and ETA and is not modelled. Returns `(was_skipped, pos, notifs)`. -/
def run_timer_loop (skipObs : Nat → Bool) (work_type : SessionType) :
    Nat → Nat → List String → Bool × Nat × List String
  | 0, pos, notifs => (false, pos, notifs)
  | r + 1, pos, notifs =>
    if skipObs (r + 1) then (true, pos, notifs)
    else
      run_timer_loop skipObs work_type r (pos + 1)
        (if r + 1 = 10 then
          notifs ++ [work_type.display ++ ": 00:10s left"] else notifs)

/-- The flag-based run_timer of src/main.rs (lines 70-140): count down
`duration_mins * 60` seconds, honouring the skip flag; afterwards, unless
skipped, send the completion notification, increment POMODORO_COUNTER
exactly when the session is a work session, and play the completion sound
unless sound is disabled. `counter` is the value of POMODORO_COUNTER when
the call starts. -/
def run_timer (duration_mins : Nat) (work_type : SessionType)
    (no_sound : Bool) (skipObs : Nat → Bool) (counter : Nat) :
    RunTimerResult :=
  let total_seconds := duration_mins * 60
  match run_timer_loop skipObs work_type total_seconds 0 [] with
  | (true, pos, notifs) =>
    { was_skipped := true
      counter := counter
      notifs := notifs
      soundPlayed := false
      pos := pos }
  | (false, pos, notifs) =>
    { was_skipped := false
      counter := if work_type.isWork then counter + 1 else counter
      notifs := notifs ++ [completionMessage work_type]
      soundPlayed := !no_sound
      pos := pos }

/-- One session as scheduled by the controller of src/main.rs: its type and
its duration in minutes. -/
structure ScheduledSession where
  stype : SessionType
  duration_mins : Nat
deriving Repr, DecidableEq

/-- run_break_timer of src/main.rs (lines 151-184), as the break session it
schedules: a short break when `cycle < total_cycles`, the long break
otherwise. -/
def run_break_timer (cycle total_cycles short_break long_break : Nat) :
    ScheduledSession :=
  if cycle < total_cycles then ⟨.ShortBreak ("Break time"), short_break⟩
  else ⟨.LongBreak ("Long break time"), long_break⟩

/-- The controller loop of main (src/main.rs, lines 280-315) with the reset
flag never set, as the list of sessions scheduled during a given number of
iterations of the inner `while current_cycle <= cycles` test: each
iteration with `current_cycle <= cycles` schedules a work session and then
the break chosen by run_break_timer and increments the cycle; when the test
fails, the outer `loop` restarts with `current_cycle = 1`. -/
def scheduleFrom (cfg : Config) : Nat → Nat → List ScheduledSession
  | _, 0 => []
  | current_cycle, fuel + 1 =>
    if current_cycle ≤ cfg.cycles then
      ⟨.Work ("Work session"), cfg.work_duration⟩
        :: run_break_timer current_cycle cfg.cycles cfg.short_break
            cfg.long_break
        :: scheduleFrom cfg (current_cycle + 1) fuel
    else scheduleFrom cfg 1 fuel

/-- Sessions scheduled for cycles `c, c + 1, ..., c + k - 1` by the inner
while loop. -/
def passFrom (cfg : Config) : Nat → Nat → List ScheduledSession
  | _, 0 => []
  | c, k + 1 =>
    ⟨.Work ("Work session"), cfg.work_duration⟩
      :: run_break_timer c cfg.cycles cfg.short_break cfg.long_break
      :: passFrom cfg (c + 1) k

/-- The two sessions the specification prescribes for cycle `c`: a work
session of the configured work duration, then a break session whose length
is the long break exactly when `c` equals the number of cycles and the
short break otherwise. Stated from the words of the claim, to be compared
with the schedule generated from the source. -/
def claimCycleSessions (cfg : Config) (c : Nat) : List ScheduledSession :=
  [⟨.Work ("Work session"), cfg.work_duration⟩,
   if c = cfg.cycles then ⟨.LongBreak ("Long break time"), cfg.long_break⟩
   else ⟨.ShortBreak ("Break time"), cfg.short_break⟩]

/-- One full pass of the cycle sequence as the specification describes it:
the sessions for cycles `1, ..., total_cycles` in order. -/
def claimPass (cfg : Config) : List ScheduledSession :=
  ((List.range cfg.cycles).map fun i => claimCycleSessions cfg (i + 1)).flatten

/-- Modelled from the spec: the channel-based Session Controller is not part
of src (src/main.rs contains only the flag-based controller, whose timers
cannot fail); section 4.3 of the specification prescribes that the
controller runs Session Timers in order and, on the first `Failed` outcome,
stops sequencing immediately without attempting further sessions. Given the
outcomes the scheduled timers would produce, this returns the outcomes of
the sessions actually run. -/
def controllerSequence : List (Except AppError Unit) →
    List (Except AppError Unit)
  | [] => []
  | .ok _ :: rest => .ok () :: controllerSequence rest
  | .error e :: _ => [.error e]

/-- Number of command deliveries in an event trace (each one causes one
receive call to return and hence one further loop iteration). -/
def cmdCount (evs : List RecvEvent) : Nat :=
  evs.countP fun e =>
    match e with
    | .cmd _ => true
    | _ => false

theorem runLoop_done (t : SessionTimer) (evs : List RecvEvent) (p : Bool)
    (pos : Nat) (notifs : List String) :
    runLoop t evs ⟨0, p, pos⟩ notifs = .exited ⟨0, p, pos⟩ notifs evs := by
  cases evs <;> simp [runLoop]

theorem tickNotifs_zero (t : SessionTimer) (r : Nat) :
    tickNotifs t r 0 = [] := by
  have h : ¬ (10 ≤ r ∧ r < 0 + 10) := by omega
  simp [tickNotifs, h]

theorem loopTop_tickNotifs (t : SessionTimer) (D k : Nat) (h : k ≤ D) :
    loopTop t (D - k) (tickNotifs t D k) = tickNotifs t D (k + 1) := by
  by_cases h10 : D - k = 10
  · have h1 : ¬ (10 ≤ D ∧ D < k + 10) := by omega
    have h2 : 10 ≤ D ∧ D < k + 1 + 10 := by omega
    simp [loopTop, tickNotifs, h10, h1, h2]
    omega
  · have hiff : (10 ≤ D ∧ D < k + 10) ↔ (10 ≤ D ∧ D < k + 1 + 10) := by omega
    by_cases hc : 10 ≤ D ∧ D < k + 10
    · simp [loopTop, tickNotifs, h10, hc, hiff.mp hc]
    · have hc2 : ¬ (10 ≤ D ∧ D < k + 1 + 10) := fun hx => hc (hiff.mpr hx)
      simp [loopTop, tickNotifs, h10, hc, hc2]

theorem runLoop_timeouts (t : SessionTimer) :
    ∀ (k r pos : Nat) (notifs : List String) (evs : List RecvEvent),
      k ≤ r →
      runLoop t (List.replicate k .timeout ++ evs) ⟨r, false, pos⟩ notifs =
        runLoop t evs ⟨r - k, false, pos + k⟩
          (notifs ++ tickNotifs t r k) := by
  intro k
  induction k with
  | zero => intro r pos notifs evs _; simp [tickNotifs_zero]
  | succ k ih =>
    intro r pos notifs evs hk
    have hr : ¬ r = 0 := by omega
    rw [List.replicate_succ, List.cons_append]
    have hstep :
        runLoop t (.timeout :: (List.replicate k .timeout ++ evs))
            ⟨r, false, pos⟩ notifs =
          runLoop t (List.replicate k .timeout ++ evs)
            ⟨r - 1, false, pos + 1⟩ (loopTop t r notifs) := by
      simp [runLoop, hr, loopTop]
    rw [hstep, ih (r - 1) (pos + 1) (loopTop t r notifs) evs (by omega)]
    have hs : r - 1 - k = r - (k + 1) := by omega
    have hp : pos + 1 + k = pos + (k + 1) := by omega
    have hn : loopTop t r notifs ++ tickNotifs t (r - 1) k
        = notifs ++ tickNotifs t r (k + 1) := by
      by_cases h10 : r = 10
      · have h1 : ¬ (10 ≤ r - 1 ∧ r - 1 < k + 10) := by omega
        have h2 : 10 ≤ r ∧ r < k + 1 + 10 := by omega
        simp [loopTop, tickNotifs, h10, h1, h2]
      · have hiff : (10 ≤ r - 1 ∧ r - 1 < k + 10) ↔
            (10 ≤ r ∧ r < k + 1 + 10) := by omega
        by_cases hc : 10 ≤ r - 1 ∧ r - 1 < k + 10
        · simp [loopTop, tickNotifs, h10, hc, hiff.mp hc]
        · have hc2 : ¬ (10 ≤ r ∧ r < k + 1 + 10) := fun hx => hc (hiff.mpr hx)
          simp [loopTop, tickNotifs, h10, hc, hc2]
    rw [hs, hp, hn]

theorem cmdCount_cons_cmd (c : Command) (evs : List RecvEvent) :
    cmdCount (.cmd c :: evs) = cmdCount evs + 1 := by
  simp [cmdCount, List.countP_cons]

theorem cmdCount_cons_timeout (evs : List RecvEvent) :
    cmdCount (.timeout :: evs) = cmdCount evs := by
  simp [cmdCount, List.countP_cons]

theorem loopTop_replicate (t : SessionTimer) (r n : Nat)
    (notifs : List String) :
    loopTop t r notifs ++
        (if r = 10 then List.replicate n (tenSecondsMsg t) else []) =
      notifs ++
        (if r = 10 then List.replicate (n + 1) (tenSecondsMsg t) else []) := by
  by_cases h10 : r = 10
  · simp [loopTop, h10, List.replicate_succ]
  · simp [loopTop, h10]

theorem runLoop_paused_timeouts (t : SessionTimer) :
    ∀ (j : Nat) (evs : List RecvEvent) (r pos : Nat) (notifs : List String),
      r ≠ 0 →
      runLoop t (List.replicate j .timeout ++ evs) ⟨r, true, pos⟩ notifs =
        runLoop t evs ⟨r, true, pos⟩ notifs := by
  intro j
  induction j with
  | zero => intro evs r pos notifs _; simp
  | succ j ih =>
    intro evs r pos notifs hr
    rw [List.replicate_succ, List.cons_append]
    rw [show runLoop t (.timeout :: (List.replicate j .timeout ++ evs))
          ⟨r, true, pos⟩ notifs
        = runLoop t (List.replicate j .timeout ++ evs) ⟨r, true, pos⟩ notifs
      from by simp [runLoop, hr]]
    exact ih evs r pos notifs hr

theorem runLoop_paused_phase (t : SessionTimer) :
    ∀ (mid : List RecvEvent),
      (∀ e ∈ mid,
        e ≠ .cmd .Resume ∧ e ≠ .cmd .PauseResume ∧ e ≠ .disconnected) →
      ∀ (rc : Command), rc = .Resume ∨ rc = .PauseResume →
      ∀ (r pos : Nat), r ≠ 0 →
      ∀ (evs : List RecvEvent) (notifs : List String),
        runLoop t (mid ++ .cmd rc :: evs) ⟨r, true, pos⟩ notifs =
          runLoop t evs ⟨r, false, pos⟩
            (notifs ++ if r = 10
              then List.replicate (cmdCount mid + 1) (tenSecondsMsg t)
              else []) := by
  intro mid
  induction mid with
  | nil =>
    intro _ rc hrc r pos hr evs notifs
    have hstep : runLoop t (.cmd rc :: evs) ⟨r, true, pos⟩ notifs
        = runLoop t evs ⟨r, false, pos⟩ (loopTop t r notifs) := by
      rcases hrc with rfl | rfl <;> simp [runLoop, hr]
    rw [List.nil_append, hstep]
    by_cases h10 : r = 10 <;> simp [loopTop, cmdCount, h10]
  | cons e mid ih =>
    intro hmid rc hrc r pos hr evs notifs
    obtain ⟨h1, h2, h3⟩ := hmid e (List.mem_cons_self e mid)
    have hmid' : ∀ e ∈ mid,
        e ≠ .cmd .Resume ∧ e ≠ .cmd .PauseResume ∧ e ≠ .disconnected :=
      fun e he => hmid e (List.mem_cons_of_mem _ he)
    cases e with
    | timeout =>
      rw [List.cons_append]
      rw [show runLoop t (.timeout :: (mid ++ .cmd rc :: evs))
            ⟨r, true, pos⟩ notifs
          = runLoop t (mid ++ .cmd rc :: evs) ⟨r, true, pos⟩ notifs
        from by simp [runLoop, hr]]
      rw [ih hmid' rc hrc r pos hr evs notifs, cmdCount_cons_timeout]
    | disconnected => exact absurd rfl h3
    | cmd c =>
      have hstep : runLoop t (.cmd c :: (mid ++ .cmd rc :: evs))
            ⟨r, true, pos⟩ notifs
          = runLoop t (mid ++ .cmd rc :: evs) ⟨r, true, pos⟩
              (loopTop t r notifs) := by
        cases c with
        | Resume => exact absurd rfl h1
        | PauseResume => exact absurd rfl h2
        | Pause => simp [runLoop, hr]
        | Reset => simp [runLoop, hr]
        | Skip => simp [runLoop, hr]
      rw [List.cons_append, hstep,
        ih hmid' rc hrc r pos hr evs (loopTop t r notifs),
        cmdCount_cons_cmd, loopTop_replicate]

/-- C1: for every duration D with D >= 1 second, a Session Timer whose
every receive attempt times out terminates with `Ok` after consuming
exactly D timeout iterations — the countdown reaches `remaining_secs = 0`,
the progress position reaches D, the events after the D timeouts are left
untouched, and the completion sound fires according to the sound setting;
moreover, after only k < D timeouts the loop is still running with
`remaining_secs = D - k`, so completion happens after exactly D ticks. -/
theorem timer_completes_after_duration_ticks (t : SessionTimer)
    (hp : t.is_paused = false) (hD : 1 ≤ t.duration) :
    (∀ rest : List RecvEvent,
      t.run (List.replicate t.duration .timeout ++ rest) =
        { outcome := some (.ok ())
          final := ⟨0, false, t.duration⟩
          notifs := tickNotifs t t.duration t.duration
          soundPlayed := t.sound
          rest := rest })
    ∧ ∀ k, k < t.duration →
      t.run (List.replicate k .timeout) =
        { outcome := none
          final := ⟨t.duration - k, false, k⟩
          notifs := tickNotifs t t.duration (k + 1)
          soundPlayed := false
          rest := ([] : List RecvEvent) } := by
  constructor
  · intro rest
    unfold SessionTimer.run
    rw [hp, runLoop_timeouts t t.duration t.duration 0 [] rest (le_refl _),
      Nat.sub_self, runLoop_done]
    simp
  · intro k hk
    unfold SessionTimer.run
    rw [hp]
    have h := runLoop_timeouts t k t.duration 0 [] [] (by omega)
    rw [List.append_nil] at h
    rw [h]
    have hne : ¬ (t.duration - k = 0) := by omega
    have hloop := loopTop_tickNotifs t t.duration k (by omega)
    simp [runLoop, hne, hloop]

/-- Witness for C1: a three-second work session with three timeouts
completes; with two timeouts it is still running at one second left. -/
theorem timer_completes_after_duration_ticks_witness :
    (SessionTimer.new 3 (.Work ("Work session")) 1 4 true).run
        (List.replicate 3 .timeout) =
      { outcome := some (.ok ())
        final := ⟨0, false, 3⟩
        notifs := []
        soundPlayed := false
        rest := [] }
    ∧ (SessionTimer.new 3 (.Work ("Work session")) 1 4 true).run
        (List.replicate 2 .timeout) =
      { outcome := none
        final := ⟨1, false, 2⟩
        notifs := []
        soundPlayed := false
        rest := [] } := by
  have h := timer_completes_after_duration_ticks
    (SessionTimer.new 3 (.Work ("Work session")) 1 4 true) rfl (by decide)
  have h1 := h.1 []
  have h2 := h.2 2 (by decide)
  exact ⟨by simpa [SessionTimer.new, tickNotifs] using h1,
    by simpa [SessionTimer.new, tickNotifs] using h2⟩

/-- C2: in any running state, processing Pause (or PauseResume), then any
sequence of paused-state events that are not Resume, PauseResume or a
disconnect, then Resume (or PauseResume), puts the timer back in Running
with `remaining_secs` and the progress position exactly as when the pause
command was processed; the continuation of the run is identical to one
that never paused, except that the ten-seconds notification is repeated
once per paused-state loop iteration when the pause spans
`remaining_secs = 10`. -/
theorem pause_resume_preserves_remaining (t : SessionTimer) (r pos : Nat)
    (hr : r ≠ 0)
    (p : Command) (hp : p = .Pause ∨ p = .PauseResume)
    (mid : List RecvEvent)
    (hmid : ∀ e ∈ mid,
      e ≠ .cmd .Resume ∧ e ≠ .cmd .PauseResume ∧ e ≠ .disconnected)
    (rc : Command) (hrc : rc = .Resume ∨ rc = .PauseResume)
    (evs : List RecvEvent) (notifs : List String) :
    runLoop t (.cmd p :: (mid ++ .cmd rc :: evs)) ⟨r, false, pos⟩ notifs =
      runLoop t evs ⟨r, false, pos⟩
        (notifs ++ if r = 10
          then List.replicate (cmdCount mid + 2) (tenSecondsMsg t)
          else []) := by
  have hstep : runLoop t (.cmd p :: (mid ++ .cmd rc :: evs))
        ⟨r, false, pos⟩ notifs
      = runLoop t (mid ++ .cmd rc :: evs) ⟨r, true, pos⟩
          (loopTop t r notifs) := by
    rcases hp with rfl | rfl <;> simp [runLoop, hr]
  rw [hstep,
    runLoop_paused_phase t mid hmid rc hrc r pos hr evs (loopTop t r notifs),
    loopTop_replicate]

/-- Witness for C2: pausing a 25-second work timer, ignoring a Skip and an
absorbed second while paused, then resuming, continues exactly as the
unpaused state would. -/
theorem pause_resume_preserves_remaining_witness :
    runLoop (SessionTimer.new 25 (.Work ("Work session")) 1 4 false)
        (.cmd .Pause :: ([.timeout, .cmd .Skip, .timeout] ++ .cmd .Resume :: [.timeout]))
        ⟨25, false, 0⟩ [] =
      runLoop (SessionTimer.new 25 (.Work ("Work session")) 1 4 false)
        [.timeout] ⟨25, false, 0⟩
        ([] ++ if 25 = 10
          then List.replicate (cmdCount [.timeout, .cmd .Skip, .timeout] + 2)
            (tenSecondsMsg (SessionTimer.new 25 (.Work ("Work session")) 1 4 false))
          else []) :=
  pause_resume_preserves_remaining
    (SessionTimer.new 25 (.Work ("Work session")) 1 4 false) 25 0 (by omega)
    .Pause (Or.inl rfl) [.timeout, .cmd .Skip, .timeout] (by decide)
    .Resume (Or.inl rfl) [.timeout] []

/-- C3: processing Reset in any running state sets `remaining_secs` back to
the construction-time duration and the progress position back to zero,
leaving the timer running: the continuation is the run from that restored
state. -/
theorem reset_restores_duration (t : SessionTimer) (r pos : Nat)
    (hr : r ≠ 0) (evs : List RecvEvent) (notifs : List String) :
    runLoop t (.cmd .Reset :: evs) ⟨r, false, pos⟩ notifs =
      runLoop t evs ⟨t.duration, false, 0⟩ (loopTop t r notifs) := by
  simp [runLoop, hr]

/-- Witness for C3: resetting a 25-second work timer at 7 seconds left and
position 18 restores 25 seconds and position 0. -/
theorem reset_restores_duration_witness :
    runLoop (SessionTimer.new 25 (.Work ("Work session")) 1 4 false)
        [.cmd .Reset] ⟨7, false, 18⟩ [] =
      runLoop (SessionTimer.new 25 (.Work ("Work session")) 1 4 false)
        [] ⟨25, false, 0⟩
        (loopTop (SessionTimer.new 25 (.Work ("Work session")) 1 4 false) 7 []) :=
  reset_restores_duration
    (SessionTimer.new 25 (.Work ("Work session")) 1 4 false) 7 18
    (by omega) [] []

/-- C5: on a break-type session in any running position of the countdown
(k seconds elapsed, strictly before completion), a Skip command makes the
run return `Ok` immediately: the events after the Skip are not consumed, no
completion sound is requested, the notifications are only the possible
ten-seconds message, and `remaining_secs` is still strictly positive at the
abort. -/
theorem skip_aborts_break (t : SessionTimer) (hw : t.session.isWork = false)
    (hp : t.is_paused = false) (k : Nat) (hk : k < t.duration)
    (rest : List RecvEvent) :
    t.run (List.replicate k .timeout ++ .cmd .Skip :: rest) =
      { outcome := some (.ok ())
        final := ⟨t.duration - k, false, k⟩
        notifs := tickNotifs t t.duration (k + 1)
        soundPlayed := false
        rest := rest }
    ∧ 0 < t.duration - k := by
  refine ⟨?_, by omega⟩
  unfold SessionTimer.run
  rw [hp, runLoop_timeouts t k t.duration 0 [] (.cmd .Skip :: rest) (by omega)]
  have hne : ¬ (t.duration - k = 0) := by omega
  rw [show runLoop t (.cmd .Skip :: rest) ⟨t.duration - k, false, 0 + k⟩
        ([] ++ tickNotifs t t.duration k)
      = .exited ⟨t.duration - k, false, 0 + k⟩
          (loopTop t (t.duration - k) ([] ++ tickNotifs t t.duration k)) rest
    from by simp [runLoop, hne, hw]]
  have hloop := loopTop_tickNotifs t t.duration k (by omega)
  simp [hloop, hne]

/-- Witness for C5: skipping a five-second short break after one elapsed
second aborts with four seconds left and no sound. -/
theorem skip_aborts_break_witness :
    (SessionTimer.new 5 (.ShortBreak ("Break time")) 1 4 true).run
        (List.replicate 1 .timeout ++ .cmd .Skip :: [.timeout]) =
      { outcome := some (.ok ())
        final := ⟨4, false, 1⟩
        notifs := []
        soundPlayed := false
        rest := [.timeout] }
    ∧ (0 : Nat) < 4 := by
  have h := skip_aborts_break
    (SessionTimer.new 5 (.ShortBreak ("Break time")) 1 4 true) rfl rfl 1
    (by decide) [.timeout]
  exact ⟨by simpa [SessionTimer.new, tickNotifs] using h.1,
    by simpa [SessionTimer.new] using h.2⟩

theorem controllerSequence_stops_after_error :
    ∀ (pre : List (Except AppError Unit)), (∀ x ∈ pre, x = .ok ()) →
    ∀ (e : AppError) (post : List (Except AppError Unit)),
      controllerSequence (pre ++ .error e :: post) = pre ++ [.error e] := by
  intro pre
  induction pre with
  | nil => intro _ e post; simp [controllerSequence]
  | cons x pre ih =>
    intro hpre e post
    have hx := hpre x (List.mem_cons_self x pre)
    subst hx
    rw [List.cons_append,
      show controllerSequence (.ok () :: (pre ++ .error e :: post))
        = .ok () :: controllerSequence (pre ++ .error e :: post)
      from rfl,
      ih (fun y hy => hpre y (List.mem_cons_of_mem _ hy)) e post]
    simp

/-- C6: a disconnected channel observed while running (the bounded receive)
returns `AppError::ChannelRecvTimeout(Disconnected)` immediately; observed
while paused (after any number of silent seconds absorbed by the blocking
receive) it returns `AppError::ChannelRecv`; in both cases no further
events are consumed. The controller, modelled from the spec, runs no
session after the first failed one. -/
theorem channel_error_terminates (t : SessionTimer) (r pos : Nat)
    (hr : r ≠ 0) (j : Nat) (evs : List RecvEvent) (notifs : List String)
    (pre : List (Except AppError Unit)) (hpre : ∀ x ∈ pre, x = .ok ())
    (e : AppError) (post : List (Except AppError Unit)) :
    runLoop t (.disconnected :: evs) ⟨r, false, pos⟩ notifs =
      .errored (.ChannelRecvTimeout .Disconnected) ⟨r, false, pos⟩
        (loopTop t r notifs) evs
    ∧ runLoop t (List.replicate j .timeout ++ .disconnected :: evs)
        ⟨r, true, pos⟩ notifs =
      .errored (.ChannelRecv .mk) ⟨r, true, pos⟩ (loopTop t r notifs) evs
    ∧ controllerSequence (pre ++ .error e :: post) = pre ++ [.error e] := by
  refine ⟨by simp [runLoop, hr], ?_,
    controllerSequence_stops_after_error pre hpre e post⟩
  rw [runLoop_paused_timeouts t j (.disconnected :: evs) r pos notifs hr]
  simp [runLoop, hr]

/-- Witness for C6: a disconnect at 9 seconds left fails the timer in both
states, and a controller run of one successful session then a failure runs
nothing further. -/
theorem channel_error_terminates_witness :
    runLoop (SessionTimer.new 25 (.Work ("Work session")) 1 4 false)
        [.disconnected, .timeout] ⟨9, false, 16⟩ [] =
      .errored (.ChannelRecvTimeout .Disconnected) ⟨9, false, 16⟩
        (loopTop (SessionTimer.new 25 (.Work ("Work session")) 1 4 false) 9 [])
        [.timeout]
    ∧ runLoop (SessionTimer.new 25 (.Work ("Work session")) 1 4 false)
        (List.replicate 2 .timeout ++ [.disconnected, .timeout])
        ⟨9, true, 16⟩ [] =
      .errored (.ChannelRecv .mk) ⟨9, true, 16⟩
        (loopTop (SessionTimer.new 25 (.Work ("Work session")) 1 4 false) 9 [])
        [.timeout]
    ∧ controllerSequence
        ([.ok ()] ++ .error (.ChannelRecv .mk) :: [.ok ()]) =
      [.ok ()] ++ [.error (.ChannelRecv .mk)] :=
  channel_error_terminates
    (SessionTimer.new 25 (.Work ("Work session")) 1 4 false) 9 16
    (by omega) 2 [.timeout] [] [.ok ()] (by decide)
    (.ChannelRecv .mk) [.ok ()]

/-- C7 counterexample: a single completed countdown pass of an 11-second
work session — one threshold crossing of `remaining_secs = 10`, no Reset —
in which a Pause and a Resume are processed during the ten-seconds-left
second, sends the ten-seconds notification three times, because the check
sits at the top of every loop iteration. This refutes the claim that the
notification fires at most once per threshold crossing. -/
theorem ten_seconds_notification_counterexample :
    ((SessionTimer.new 11 (.Work ("Work session")) 1 4 true).run
        ([.timeout, .cmd .Pause, .cmd .Resume] ++
          List.replicate 10 .timeout)).outcome = some (.ok ())
    ∧ ((SessionTimer.new 11 (.Work ("Work session")) 1 4 true).run
        ([.timeout, .cmd .Pause, .cmd .Resume] ++
          List.replicate 10 .timeout)).notifs.length = 3 := by
  constructor <;>
    simp [SessionTimer.run, runLoop, SessionTimer.new, loopTop,
      List.replicate]

/-- C7 amended: the ten-seconds notification is sent at the top of every
countdown-loop iteration entered with `remaining_secs = 10`; in a run with
no commands delivered it is sent exactly once when the duration is at
least ten seconds and never for shorter durations. -/
theorem ten_seconds_notification_amended (t : SessionTimer)
    (hp : t.is_paused = false) :
    (10 ≤ t.duration →
      (t.run (List.replicate t.duration .timeout)).notifs = [tenSecondsMsg t])
    ∧ (t.duration < 10 →
      (t.run (List.replicate t.duration .timeout)).notifs = []) := by
  have key : (t.run (List.replicate t.duration .timeout)).notifs
      = tickNotifs t t.duration t.duration := by
    unfold SessionTimer.run
    rw [hp]
    have h := runLoop_timeouts t t.duration t.duration 0 [] [] (le_refl _)
    rw [List.append_nil] at h
    rw [h, Nat.sub_self, runLoop_done]
    simp
  constructor
  · intro h10
    have hc : 10 ≤ t.duration ∧ t.duration < t.duration + 10 := by omega
    rw [key]; simp [tickNotifs, hc]
  · intro h10
    have hc : ¬ (10 ≤ t.duration ∧ t.duration < t.duration + 10) := by omega
    rw [key]; simp [tickNotifs, hc]; omega

/-- Witness for the amended C7: a 12-second run with no commands notifies
exactly once, a 3-second run never. -/
theorem ten_seconds_notification_amended_witness :
    ((SessionTimer.new 12 (.Work ("Work session")) 1 4 true).run
        (List.replicate 12 .timeout)).notifs
      = [tenSecondsMsg (SessionTimer.new 12 (.Work ("Work session")) 1 4 true)]
    ∧ ((SessionTimer.new 3 (.Work ("Work session")) 1 4 true).run
        (List.replicate 3 .timeout)).notifs = [] := by
  constructor
  · have h := (ten_seconds_notification_amended
      (SessionTimer.new 12 (.Work ("Work session")) 1 4 true) rfl).1
      (by decide)
    simpa [SessionTimer.new] using h
  · have h := (ten_seconds_notification_amended
      (SessionTimer.new 3 (.Work ("Work session")) 1 4 true) rfl).2
      (by decide)
    simpa [SessionTimer.new] using h

/-- C9: during a running work session, a Skip command is a no-op — the
match guard excludes the Work variant, so the continuation of the run is
exactly the run on the remaining events from the unchanged state (only the
loop-top notification bookkeeping happens) — and a work-session run with a
Skip delivered mid-countdown still completes with `remaining_secs = 0`. -/
theorem work_session_skip_is_noop (t : SessionTimer)
    (hw : t.session.isWork = true) (hp : t.is_paused = false)
    (r pos : Nat) (hr : r ≠ 0) (evs : List RecvEvent)
    (notifs : List String) (j : Nat) (hj : j < t.duration) :
    runLoop t (.cmd .Skip :: evs) ⟨r, false, pos⟩ notifs =
      runLoop t evs ⟨r, false, pos⟩ (loopTop t r notifs)
    ∧ (t.run (List.replicate j .timeout ++ .cmd .Skip ::
        List.replicate (t.duration - j) .timeout)).outcome = some (.ok ())
    ∧ (t.run (List.replicate j .timeout ++ .cmd .Skip ::
        List.replicate (t.duration - j) .timeout)).final.remaining_secs
      = 0 := by
  have hne : ¬ (t.duration - j = 0) := by omega
  have key : runLoop t (List.replicate j .timeout ++ .cmd .Skip ::
      List.replicate (t.duration - j) .timeout)
      ⟨t.duration, false, 0⟩ [] =
    .exited ⟨0, false, 0 + j + (t.duration - j)⟩
      (loopTop t (t.duration - j) ([] ++ tickNotifs t t.duration j)
        ++ tickNotifs t (t.duration - j) (t.duration - j))
      [] := by
    rw [runLoop_timeouts t j t.duration 0 []
      (.cmd .Skip :: List.replicate (t.duration - j) .timeout) (by omega)]
    rw [show runLoop t (.cmd .Skip :: List.replicate (t.duration - j) .timeout)
          ⟨t.duration - j, false, 0 + j⟩ ([] ++ tickNotifs t t.duration j)
        = runLoop t (List.replicate (t.duration - j) .timeout)
            ⟨t.duration - j, false, 0 + j⟩
            (loopTop t (t.duration - j) ([] ++ tickNotifs t t.duration j))
      from by simp [runLoop, hne, hw]]
    have h2 := runLoop_timeouts t (t.duration - j) (t.duration - j) (0 + j)
      (loopTop t (t.duration - j) ([] ++ tickNotifs t t.duration j)) []
      (le_refl _)
    rw [List.append_nil] at h2
    rw [h2, Nat.sub_self, runLoop_done]
  refine ⟨by simp [runLoop, hr, hw], ?_, ?_⟩
  · unfold SessionTimer.run
    rw [hp, key]
  · unfold SessionTimer.run
    rw [hp, key]

/-- Witness for C9: a Skip at three seconds left of a work session changes
nothing, and a three-second work session with a Skip after one tick still
completes. -/
theorem work_session_skip_is_noop_witness :
    runLoop (SessionTimer.new 3 (.Work ("Work session")) 1 4 true)
        [.cmd .Skip, .timeout] ⟨3, false, 0⟩ [] =
      runLoop (SessionTimer.new 3 (.Work ("Work session")) 1 4 true)
        [.timeout] ⟨3, false, 0⟩
        (loopTop (SessionTimer.new 3 (.Work ("Work session")) 1 4 true) 3 [])
    ∧ ((SessionTimer.new 3 (.Work ("Work session")) 1 4 true).run
        (List.replicate 1 .timeout ++ .cmd .Skip ::
          List.replicate 2 .timeout)).outcome = some (.ok ())
    ∧ ((SessionTimer.new 3 (.Work ("Work session")) 1 4 true).run
        (List.replicate 1 .timeout ++ .cmd .Skip ::
          List.replicate 2 .timeout)).final.remaining_secs = 0 := by
  have h := work_session_skip_is_noop
    (SessionTimer.new 3 (.Work ("Work session")) 1 4 true) rfl rfl 3 0
    (by omega) [.timeout] [] 1 (by decide)
  exact ⟨h.1, by simpa [SessionTimer.new] using h.2.1,
    by simpa [SessionTimer.new] using h.2.2⟩

/-- C4: one call of the flag-based run_timer adds exactly 1 to
POMODORO_COUNTER when the session is a work session that was not skipped
(i.e. that completed), and 0 in every other case — in particular 0 for
every break session no matter how it ends. -/
theorem pomodoro_counter_increment (duration_mins : Nat)
    (work_type : SessionType) (no_sound : Bool) (skipObs : Nat → Bool)
    (counter : Nat) :
    (run_timer duration_mins work_type no_sound skipObs counter).counter =
      counter +
        (if work_type.isWork
            && !(run_timer duration_mins work_type no_sound skipObs
                counter).was_skipped
          then 1 else 0) := by
  rcases h : run_timer_loop skipObs work_type (duration_mins * 60) 0 []
    with ⟨b, pos, notifs⟩
  cases b <;> cases work_type <;> simp [run_timer, h, SessionType.isWork]

theorem run_break_timer_eq (cfg : Config) (c : Nat) (hc : c ≤ cfg.cycles) :
    run_break_timer c cfg.cycles cfg.short_break cfg.long_break =
      if c = cfg.cycles then ⟨.LongBreak ("Long break time"), cfg.long_break⟩
      else ⟨.ShortBreak ("Break time"), cfg.short_break⟩ := by
  by_cases h : c = cfg.cycles
  · simp [run_break_timer, h]
  · have hlt : c < cfg.cycles := by omega
    simp [run_break_timer, hlt, h]

theorem scheduleFrom_pass (cfg : Config) :
    ∀ (k c m : Nat), c + k = cfg.cycles + 1 →
      scheduleFrom cfg c (k + (m + 1)) =
        passFrom cfg c k ++ scheduleFrom cfg 1 m := by
  intro k
  induction k with
  | zero =>
    intro c m hc
    have hgt : ¬ (c ≤ cfg.cycles) := by omega
    rw [Nat.zero_add]
    simp [scheduleFrom, passFrom, hgt]
  | succ k ih =>
    intro c m hc
    have hle : c ≤ cfg.cycles := by omega
    rw [Nat.succ_add]
    rw [show scheduleFrom cfg c ((k + (m + 1)) + 1)
        = ⟨.Work ("Work session"), cfg.work_duration⟩
          :: run_break_timer c cfg.cycles cfg.short_break cfg.long_break
          :: scheduleFrom cfg (c + 1) (k + (m + 1))
      from by simp [scheduleFrom, hle]]
    rw [ih (c + 1) m (by omega)]
    simp [passFrom]

theorem passFrom_eq_claim (cfg : Config) :
    ∀ (k c : Nat), c + k = cfg.cycles + 1 →
      passFrom cfg c k =
        ((List.range k).map fun i =>
          claimCycleSessions cfg (c + i)).flatten := by
  intro k
  induction k with
  | zero => intro c _; simp [passFrom]
  | succ k ih =>
    intro c hc
    rw [show passFrom cfg c (k + 1)
        = ⟨.Work ("Work session"), cfg.work_duration⟩
          :: run_break_timer c cfg.cycles cfg.short_break cfg.long_break
          :: passFrom cfg (c + 1) k
      from rfl]
    rw [ih (c + 1) (by omega), run_break_timer_eq cfg c (by omega),
      List.range_succ_eq_map]
    simp only [List.map_cons, List.flatten_cons, List.map_map,
      Function.comp_def]
    rw [List.map_congr_left
      (fun i _ => show claimCycleSessions cfg (c + Nat.succ i)
          = claimCycleSessions cfg ((c + 1) + i) from by congr 1; omega)]
    simp [claimCycleSessions]

/-- C8: the controller schedule generated from src/main.rs, run with the
reset flag never set, equals — for every number n of full passes — n
repetitions of the sequence the specification prescribes: for each cycle c
from 1 to total_cycles a work session of the configured work duration
followed by a break that is the long break exactly when c equals
total_cycles and the short break otherwise, the whole sequence restarting
from cycle 1 after the last cycle with no natural end. -/
theorem controller_schedule_spec (cfg : Config) (n : Nat) :
    scheduleFrom cfg 1 (n * (cfg.cycles + 1)) =
      (List.replicate n (claimPass cfg)).flatten := by
  induction n with
  | zero => simp [scheduleFrom]
  | succ n ih =>
    have hmul : (n + 1) * (cfg.cycles + 1)
        = cfg.cycles + (n * (cfg.cycles + 1) + 1) := by ring
    rw [hmul,
      scheduleFrom_pass cfg cfg.cycles 1 (n * (cfg.cycles + 1)) (by omega),
      ih, passFrom_eq_claim cfg cfg.cycles 1 (by omega),
      List.replicate_succ, List.flatten_cons]
    congr 1
    unfold claimPass
    congr 1
    exact List.map_congr_left
      (fun i _ => show claimCycleSessions cfg (1 + i)
        = claimCycleSessions cfg (i + 1) from by congr 1; omega)

theorem runLoopTrace_bounded (t : SessionTimer) :
    ∀ (evs : List RecvEvent) (s : RunState),
      s.remaining_secs ≤ t.duration →
      ∀ s' ∈ runLoopTrace t evs s, s'.remaining_secs ≤ t.duration := by
  intro evs
  induction evs with
  | nil =>
    intro s hs s' hmem
    simp [runLoopTrace] at hmem
    subst hmem
    exact hs
  | cons e rest ih =>
    intro s hs s' hmem
    by_cases h0 : s.remaining_secs = 0
    · simp [runLoopTrace, h0] at hmem
      subst hmem
      exact hs
    · cases hsp : s.is_paused
      · cases e with
        | timeout =>
          simp [runLoopTrace, h0, hsp] at hmem
          rcases hmem with rfl | hmem
          · exact hs
          · exact ih _ (by simp; omega) s' hmem
        | disconnected =>
          simp [runLoopTrace, h0, hsp] at hmem
          subst hmem
          exact hs
        | cmd c =>
          cases c with
          | Skip =>
            by_cases hw : t.session.isWork
            · simp [runLoopTrace, h0, hsp, hw] at hmem
              rcases hmem with rfl | hmem
              · exact hs
              · exact ih _ hs s' hmem
            · simp [runLoopTrace, h0, hsp, hw] at hmem
              subst hmem
              exact hs
          | Pause =>
            simp [runLoopTrace, h0, hsp] at hmem
            rcases hmem with rfl | hmem
            · exact hs
            · exact ih _ (by simpa using hs) s' hmem
          | PauseResume =>
            simp [runLoopTrace, h0, hsp] at hmem
            rcases hmem with rfl | hmem
            · exact hs
            · exact ih _ (by simpa using hs) s' hmem
          | Reset =>
            simp [runLoopTrace, h0, hsp] at hmem
            rcases hmem with rfl | hmem
            · exact hs
            · exact ih _ (by simp) s' hmem
          | Resume =>
            simp [runLoopTrace, h0, hsp] at hmem
            rcases hmem with rfl | hmem
            · exact hs
            · exact ih _ hs s' hmem
      · cases e with
        | timeout =>
          simp [runLoopTrace, h0, hsp] at hmem
          rcases hmem with rfl | hmem
          · exact hs
          · exact ih _ hs s' hmem
        | disconnected =>
          simp [runLoopTrace, h0, hsp] at hmem
          subst hmem
          exact hs
        | cmd c =>
          cases c with
          | Resume =>
            simp [runLoopTrace, h0, hsp] at hmem
            rcases hmem with rfl | hmem
            · exact hs
            · exact ih _ (by simpa using hs) s' hmem
          | PauseResume =>
            simp [runLoopTrace, h0, hsp] at hmem
            rcases hmem with rfl | hmem
            · exact hs
            · exact ih _ (by simpa using hs) s' hmem
          | Pause =>
            simp [runLoopTrace, h0, hsp] at hmem
            rcases hmem with rfl | hmem
            · exact hs
            · exact ih _ hs s' hmem
          | Reset =>
            simp [runLoopTrace, h0, hsp] at hmem
            rcases hmem with rfl | hmem
            · exact hs
            · exact ih _ hs s' hmem
          | Skip =>
            simp [runLoopTrace, h0, hsp] at hmem
            rcases hmem with rfl | hmem
            · exact hs
            · exact ih _ hs s' hmem

theorem runLoop_state_mem_trace (t : SessionTimer) :
    ∀ (evs : List RecvEvent) (s : RunState) (notifs : List String),
      (runLoop t evs s notifs).state ∈ runLoopTrace t evs s := by
  intro evs
  induction evs with
  | nil =>
    intro s notifs
    by_cases h0 : s.remaining_secs = 0 <;>
      simp [runLoop, runLoopTrace, h0, LoopExit.state]
  | cons e rest ih =>
    intro s notifs
    by_cases h0 : s.remaining_secs = 0
    · simp [runLoop, runLoopTrace, h0, LoopExit.state]
    · cases hsp : s.is_paused
      · cases e with
        | timeout =>
          simp only [runLoop, runLoopTrace, h0, hsp, if_false,
            Bool.false_eq_true, ite_false]
          exact List.mem_cons_of_mem _ (ih _ _)
        | disconnected =>
          simp [runLoop, runLoopTrace, h0, hsp, LoopExit.state]
        | cmd c =>
          cases c with
          | Skip =>
            by_cases hw : t.session.isWork
            · simp only [runLoop, runLoopTrace, h0, hsp, hw,
                Bool.false_eq_true, ite_false, ite_true, if_true]
              exact List.mem_cons_of_mem _ (ih _ _)
            · simp [runLoop, runLoopTrace, h0, hsp, hw, LoopExit.state]
          | Pause =>
            simp only [runLoop, runLoopTrace, h0, hsp,
              Bool.false_eq_true, ite_false]
            exact List.mem_cons_of_mem _ (ih _ _)
          | PauseResume =>
            simp only [runLoop, runLoopTrace, h0, hsp,
              Bool.false_eq_true, ite_false]
            exact List.mem_cons_of_mem _ (ih _ _)
          | Reset =>
            simp only [runLoop, runLoopTrace, h0, hsp,
              Bool.false_eq_true, ite_false]
            exact List.mem_cons_of_mem _ (ih _ _)
          | Resume =>
            simp only [runLoop, runLoopTrace, h0, hsp,
              Bool.false_eq_true, ite_false]
            exact List.mem_cons_of_mem _ (ih _ _)
      · cases e with
        | timeout =>
          simp only [runLoop, runLoopTrace, h0, hsp, ite_true, if_true]
          exact List.mem_cons_of_mem _ (ih _ _)
        | disconnected =>
          simp [runLoop, runLoopTrace, h0, hsp, LoopExit.state]
        | cmd c =>
          cases c with
          | Resume =>
            simp only [runLoop, runLoopTrace, h0, hsp, ite_true, if_true]
            exact List.mem_cons_of_mem _ (ih _ _)
          | PauseResume =>
            simp only [runLoop, runLoopTrace, h0, hsp, ite_true, if_true]
            exact List.mem_cons_of_mem _ (ih _ _)
          | Pause =>
            simp only [runLoop, runLoopTrace, h0, hsp, ite_true, if_true]
            exact List.mem_cons_of_mem _ (ih _ _)
          | Reset =>
            simp only [runLoop, runLoopTrace, h0, hsp, ite_true, if_true]
            exact List.mem_cons_of_mem _ (ih _ _)
          | Skip =>
            simp only [runLoop, runLoopTrace, h0, hsp, ite_true, if_true]
            exact List.mem_cons_of_mem _ (ih _ _)

/-- C10: in every run of the countdown loop started from
`remaining_secs = duration` (either paused flag, as the constructor or a
caller could set it), every state the loop passes through satisfies
`remaining_secs <= duration` — with `remaining_secs : Nat >= 0` this is the
claimed invariant `0 <= remaining_secs <= duration`; the final state of the
run is one of the traced states, and the only decrement in `runLoop` is in
the timeout branch, which is reached only under the loop guard
`remaining_secs ≠ 0`, so the subtraction `remaining_secs - 1` never
underflows. -/
theorem remaining_secs_invariant (t : SessionTimer) (p : Bool)
    (evs : List RecvEvent) (notifs : List String) :
    (∀ s' ∈ runLoopTrace t evs ⟨t.duration, p, 0⟩,
      s'.remaining_secs ≤ t.duration)
    ∧ (runLoop t evs ⟨t.duration, p, 0⟩ notifs).state
        ∈ runLoopTrace t evs ⟨t.duration, p, 0⟩ :=
  ⟨fun s' h => runLoopTrace_bounded t evs ⟨t.duration, p, 0⟩ (le_refl _) s' h,
   runLoop_state_mem_trace t evs ⟨t.duration, p, 0⟩ notifs⟩

/-- Witness for C10: in a three-second run with one tick, the state after
the tick is bounded by the duration and the final pending state is traced. -/
theorem remaining_secs_invariant_witness :
    (RunState.mk 2 false 1).remaining_secs ≤ 3
    ∧ (runLoop (SessionTimer.new 3 (.Work ("Work session")) 1 4 true)
        [.timeout] ⟨3, false, 0⟩ []).state
      ∈ runLoopTrace (SessionTimer.new 3 (.Work ("Work session")) 1 4 true)
          [.timeout] ⟨3, false, 0⟩ := by
  have h := remaining_secs_invariant
    (SessionTimer.new 3 (.Work ("Work session")) 1 4 true) false [.timeout] []
  refine ⟨?_, h.2⟩
  have hb := h.1 ⟨2, false, 1⟩ (by decide)
  simpa [SessionTimer.new] using hb

end Pomodoro
